import Mathlib

/-!
Verification development for the MowBot job-tracking repository.

The repository contains two live implementation families of the job
lifecycle operations:

* `src/src/bot/services/ground_service.py` — SQLAlchemy-based
  `GroundService` (called from `src/src/bot/handlers/job_handler.py`);
* `src/telegram_bot.py` — raw-SQL handlers (`emp_start_job`,
  `emp_finish_job`, `reset_jobs_daily`, `assign_jobs_to_employee`,
  `build_director_assign_jobs_page`).

Both are embedded below, each faithful to its own source.  A job row of
the `grounds_data` table is a `Ground`; the table is a `List Ground`;
SQLAlchemy's `.first()` is `List.find?`; a SQL `UPDATE ... WHERE` is a
`List.map` guarded by the predicate, while an ORM single-object mutation
replaces the first matching row.  `datetime.now()` values are modelled
as abstract `Nat` time points passed explicitly.  Python strings that
the code splits and joins (the `photos` column) are modelled as
`List Char` so that `str.split('|')` and `str.strip()` have faithful,
provable models.
-/

namespace MowBot

/-- One row of the `grounds_data` table (model `Ground` in
`src/bot/database/models.py`).  Only the columns read or written by the
operations under verification are carried; `site_name`, `area` and
`notes` stand in for the static descriptive fields, which none of the
lifecycle operations mutate. -/
structure Ground where
  id : Nat
  site_name : String
  area : Option String
  status : String
  assigned_to : Option Nat
  scheduled_date : Option String
  start_time : Option Nat
  finish_time : Option Nat
  photos : Option (List Char)
  notes : Option String
deriving DecidableEq

/-- Python truthiness of an optional string column: `None` and the empty
string are falsy. -/
def pyTruthy : Option (List Char) → Bool
  | none => false
  | some s => !s.isEmpty

/-- Python `str.split('|')`: always returns one more part than the
number of separators; `"".split('|') == [""]`. -/
def pySplit : List Char → List (List Char)
  | [] => [[]]
  | c :: cs =>
    if c = '|' then [] :: pySplit cs
    else
      match pySplit cs with
      | [] => [[c]]
      | h :: t => (c :: h) :: t

/-- Python `str.strip()`: remove leading and trailing whitespace. -/
def pyStrip (s : List Char) : List Char :=
  ((s.dropWhile Char.isWhitespace).reverse.dropWhile Char.isWhitespace).reverse

/-- `db.query(Ground).filter(Ground.id == ground_id).first()`, and
equally `SELECT ... WHERE id = ?` followed by `fetchone()`. -/
def findGround (db : List Ground) (gid : Nat) : Option Ground :=
  db.find? (fun g => g.id == gid)

/-- ORM-style mutation of the single object returned by `.first()`:
replace the first row whose `id` matches. -/
def updateFirst (db : List Ground) (gid : Nat) (f : Ground → Ground) : List Ground :=
  match db with
  | [] => []
  | g :: rest => if g.id == gid then f g :: rest else g :: updateFirst rest gid f

/-- SQL `UPDATE grounds_data SET ... WHERE p`: rewrite every matching
row in place. -/
def updateWhere (db : List Ground) (p : Ground → Bool) (f : Ground → Ground) : List Ground :=
  db.map (fun g => if p g then f g else g)

/-- `MAX_PHOTOS_PER_JOB` from `src/bot/config/settings.py`. -/
def MAX_PHOTOS_PER_JOB : Nat := 25

/-- `Ground.photo_count` property from `src/bot/database/models.py`:
`len(self.photos.split('|')) if self.photos else 0`. -/
def Ground.photo_count (g : Ground) : Nat :=
  if pyTruthy g.photos then (pySplit (g.photos.getD [])).length else 0

namespace GroundService

/-- `GroundService.start_job` (`ground_service.py` lines 26–39): reject
a missing ground and a `completed` ground; otherwise set
`status = 'in_progress'` and overwrite `start_time = now()` — there is
no guard for a ground already `in_progress`. -/
def start_job (db : List Ground) (gid : Nat) (now : Nat) : (Bool × String) × List Ground :=
  match findGround db gid with
  | none => ((false, "Ground not found"), db)
  | some g =>
    if g.status = "completed" then
      ((false, "Job is already completed"), db)
    else
      ((true, "Job started successfully"),
        updateFirst db gid (fun h => { h with status := "in_progress", start_time := some now }))

/-- `GroundService.finish_job` (`ground_service.py` lines 41–54): reject
a missing ground and a `completed` ground; otherwise set
`status = 'completed'` and `finish_time = now()` — there is no check
that the ground was ever `in_progress`. -/
def finish_job (db : List Ground) (gid : Nat) (now : Nat) : (Bool × String) × List Ground :=
  match findGround db gid with
  | none => ((false, "Ground not found"), db)
  | some g =>
    if g.status = "completed" then
      ((false, "Job is already completed"), db)
    else
      ((true, "Job completed successfully"),
        updateFirst db gid (fun h => { h with status := "completed", finish_time := some now }))

/-- `GroundService.add_photo` (`ground_service.py` lines 56–71):
`current_photos = photos.split('|') if photos else []`; reject when
`len(current_photos) >= MAX_PHOTOS_PER_JOB`; otherwise store
`photos.strip() + '|' + photo_path` (or just `photo_path` when the
column is falsy) and return `len(new_photos.split('|'))`. -/
def add_photo (db : List Ground) (gid : Nat) (path : List Char) :
    (Bool × String × Nat) × List Ground :=
  match findGround db gid with
  | none => ((false, "Ground not found", 0), db)
  | some g =>
    let current : List (List Char) :=
      if pyTruthy g.photos then pySplit (g.photos.getD []) else []
    if current.length ≥ MAX_PHOTOS_PER_JOB then
      ((false, "Maximum number of photos (25) reached", current.length), db)
    else
      let newPhotos : List Char :=
        if pyTruthy g.photos then pyStrip (g.photos.getD []) ++ '|' :: path else path
      ((true, "Photo added successfully", (pySplit newPhotos).length),
        updateFirst db gid (fun h => { h with photos := some newPhotos }))

/-- `GroundService.assign_to_employee` (`ground_service.py` lines
84–100): set `assigned_to`, `scheduled_date` and `status = 'pending'`
on the found ground. -/
def assign_to_employee (db : List Ground) (gid : Nat) (emp : Nat) (date : String) :
    (Bool × String) × List Ground :=
  match findGround db gid with
  | none => ((false, "Ground not found"), db)
  | some _ =>
    ((true, "Ground assigned successfully"),
      updateFirst db gid (fun h =>
        { h with assigned_to := some emp, scheduled_date := some date, status := "pending" }))

/-- `GroundService.reset_completed_jobs` (`ground_service.py` lines
102–116): bulk-update rows with `status == 'completed'` AND
`scheduled_date == today` (a NULL `scheduled_date` does not match the
SQL equality) to `status='pending'`, `assigned_to=NULL`,
`finish_time=NULL` — `start_time` is not touched; returns the number of
rows affected. -/
def reset_completed_jobs (db : List Ground) (today : String) : Nat × List Ground :=
  let p : Ground → Bool := fun g =>
    g.status == "completed" && g.scheduled_date == some today
  (db.countP p,
    updateWhere db p (fun h =>
      { h with status := "pending", assigned_to := none, finish_time := none }))

end GroundService

namespace TelegramBot

/-- `emp_start_job` (`telegram_bot.py` lines 459–477).  The outcome tag
is the message template the handler sends: `"JOB_404"`,
`"JOB_IN_PROGRESS"` (no mutation), or the `"Job Started"` success path
which runs `UPDATE grounds_data SET status='in_progress', start_time=?
WHERE id=?`.  There is no guard for a `completed` job. -/
def emp_start_job (db : List Ground) (gid : Nat) (now : Nat) : String × List Ground :=
  match findGround db gid with
  | none => ("JOB_404", db)
  | some g =>
    if g.status = "in_progress" then ("JOB_IN_PROGRESS", db)
    else
      ("Job Started",
        updateWhere db (fun h => h.id == gid)
          (fun h => { h with status := "in_progress", start_time := some now }))

/-- `emp_finish_job` (`telegram_bot.py` lines 479–500): `"JOB_404"` when
absent, `"JOB_COMPLETED"` when already completed, `"JOB_NOT_STARTED"`
when the status is not `in_progress` (no mutation in all three cases);
otherwise `UPDATE ... SET status='completed', finish_time=? WHERE
id=?`. -/
def emp_finish_job (db : List Ground) (gid : Nat) (now : Nat) : String × List Ground :=
  match findGround db gid with
  | none => ("JOB_404", db)
  | some g =>
    if g.status = "completed" then ("JOB_COMPLETED", db)
    else if g.status ≠ "in_progress" then ("JOB_NOT_STARTED", db)
    else
      ("Job Completed",
        updateWhere db (fun h => h.id == gid)
          (fun h => { h with status := "completed", finish_time := some now }))

/-- `reset_jobs_daily` (`telegram_bot.py` lines 341–361):
`UPDATE grounds_data SET status='pending', assigned_to=NULL,
start_time=NULL, finish_time=NULL WHERE status='completed' AND
(scheduled_date IS NULL OR scheduled_date = date('now','localtime'))`;
the number of affected rows (`cursor.rowcount`) is reported in the
log. -/
def reset_jobs_daily (db : List Ground) (today : String) : List Ground × Nat :=
  let p : Ground → Bool := fun g =>
    g.status == "completed" && (g.scheduled_date == none || g.scheduled_date == some today)
  (updateWhere db p (fun h =>
      { h with status := "pending", assigned_to := none,
               start_time := none, finish_time := none }),
    db.countP p)

/-- `assign_jobs_to_employee` (`telegram_bot.py` lines 731–748): with an
empty selection it reports "No Jobs Selected" and changes nothing;
otherwise it runs `UPDATE grounds_data SET assigned_to = ? WHERE id = ?`
for each selected job id — only `assigned_to` is written — and then
deletes the selection set.  The returned triple is (outcome message,
table, remaining selection). -/
def assign_jobs_to_employee (db : List Ground) (sel : List Nat) (emp : Nat) :
    (String × List Ground) × List Nat :=
  if sel.isEmpty then (("No Jobs Selected", db), sel)
  else
    (("Jobs Assigned",
      sel.foldl (fun d jid =>
        updateWhere d (fun g => g.id == jid) (fun g => { g with assigned_to := some emp })) db),
      [])

/-- The query of `build_director_assign_jobs_page` (`telegram_bot.py`
lines 214–250): `SELECT ... FROM grounds_data WHERE assigned_to IS NULL
ORDER BY id`. -/
def unassignedSorted (db : List Ground) : List Ground :=
  (db.filter (fun g => g.assigned_to == none)).mergeSort (fun a b => a.id ≤ b.id)

/-- `build_director_assign_jobs_page` (`telegram_bot.py` lines 214–250):
`jobs_per_page = 10`, `offset = (page - 1) * jobs_per_page`, then the
`LIMIT ? OFFSET ?` slice of `unassignedSorted`.  (The handler projects
each row to four columns for display; the rows themselves are returned
here.) -/
def build_director_assign_jobs_page (db : List Ground) (page : Nat) : List Ground :=
  ((unassignedSorted db).drop ((page - 1) * 10)).take 10

end TelegramBot

/-- One row of the `job_notes` table as the class `JobNote` in
`src/bot/database/models.py` declares it.  The class defines exactly the
mapped attributes `id`, `job_id`, `author_id`, `author_role`, `note`,
`created_at` — it has no `author_name` and no `photo_path` column. -/
structure JobNote where
  id : Nat
  job_id : Nat
  author_id : Nat
  author_role : String
  note : String
  created_at : Nat
deriving DecidableEq

/-- The attribute names the `JobNote` class declares, for the
constructor keyword check. -/
def jobNoteAttrs : List String :=
  ["id", "job_id", "author_id", "author_role", "note", "created_at"]

/-- SQLAlchemy's default declarative constructor accepts a keyword
argument only when the class has an attribute of that name, and raises
`TypeError` otherwise; this predicate models whether a constructor call
with the given keyword names succeeds. -/
def declarativeCtorAccepts (attrs : List String) (passed : List String) : Bool :=
  passed.all (fun k => attrs.contains k)

namespace NoteService

/-- The keyword arguments `NoteService.add_note`
(`src/bot/utils/note_service.py` lines 7–39) passes to the `JobNote`
constructor. -/
def addNoteKwargs : List String :=
  ["job_id", "author_id", "author_name", "author_role", "note", "photo_path", "created_at"]

/-- `NoteService.add_note`: build a `JobNote` from the keyword
arguments, `db.add` + `db.commit` and return `True`; any exception —
including the `TypeError` the declarative constructor raises for a
keyword that is not a mapped attribute — is caught, the session is
rolled back, and `False` is returned with the table unchanged.  The
`photo_path` and `author_name` values cannot be stored on the row type,
so a successfully constructed row would carry the remaining fields. -/
def add_note (notes : List JobNote) (noteId job_id author_id : Nat)
    (author_name author_role text : String) (photo_path : Option String)
    (now : Nat) : Bool × List JobNote :=
  let _ := author_name
  let _ := photo_path
  if declarativeCtorAccepts jobNoteAttrs addNoteKwargs then
    (true, notes ++ [{ id := noteId, job_id := job_id, author_id := author_id,
                       author_role := author_role, note := text, created_at := now }])
  else
    (false, notes)

end NoteService

end MowBot

namespace MowBot

/-- A sample job row used by witnesses and counterexamples. -/
def mkJob (id : Nat) (status : String) (assigned : Option Nat) (sched : Option String)
    (st fin : Option Nat) (ph : Option (List Char)) : Ground :=
  { id := id, site_name := "site", area := none, status := status, assigned_to := assigned,
    scheduled_date := sched, start_time := st, finish_time := fin, photos := ph, notes := none }

theorem pySplit_ne_nil (s : List Char) : pySplit s ≠ [] := by
  induction s with
  | nil => simp [pySplit]
  | cons c cs ih =>
    by_cases hc : c = '|'
    · simp [pySplit, hc]
    · simp only [pySplit, if_neg hc]
      cases h : pySplit cs with
      | nil => exact absurd h ih
      | cons a t => simp

theorem length_pySplit (s : List Char) : (pySplit s).length = s.count '|' + 1 := by
  induction s with
  | nil => simp [pySplit]
  | cons c cs ih =>
    by_cases hc : c = '|'
    · subst hc
      simp [pySplit, ih, List.count_cons]
    · simp only [pySplit, if_neg hc]
      cases h : pySplit cs with
      | nil => exact absurd h (pySplit_ne_nil cs)
      | cons a t =>
        rw [h] at ih
        simp only [List.length_cons] at ih ⊢
        have hne : ('|' : Char) ≠ c := fun hh => hc hh.symm
        simp [List.count_cons, hne, ih]

theorem pySplit_append_sep (xs ys : List Char) :
    pySplit (xs ++ '|' :: ys) = pySplit xs ++ pySplit ys := by
  induction xs with
  | nil => simp [pySplit]
  | cons c cs ih =>
    by_cases hc : c = '|'
    · simp [pySplit, hc, ih]
    · cases h : pySplit cs with
      | nil => exact absurd h (pySplit_ne_nil cs)
      | cons a t => simp [pySplit, if_neg hc, ih, h]

theorem pySplit_of_not_mem (xs : List Char) (h : ('|' : Char) ∉ xs) : pySplit xs = [xs] := by
  induction xs with
  | nil => simp [pySplit]
  | cons c cs ih =>
    have hc : c ≠ '|' := fun hh => h (hh ▸ List.mem_cons_self c cs)
    have hcs : ('|' : Char) ∉ cs := fun hh => h (List.mem_cons_of_mem c hh)
    simp [pySplit, hc, ih hcs]

theorem count_dropWhile_ws (l : List Char) :
    ((l.dropWhile Char.isWhitespace).count '|') = l.count '|' := by
  conv_rhs => rw [← List.takeWhile_append_dropWhile (p := Char.isWhitespace) (l := l)]
  rw [List.count_append]
  have h0 : (l.takeWhile Char.isWhitespace).count '|' = 0 := by
    rw [List.count_eq_zero]
    intro hm
    have hw := List.mem_takeWhile_imp hm
    exact absurd hw (by decide)
  omega

theorem count_pyStrip (s : List Char) : (pyStrip s).count '|' = s.count '|' := by
  unfold pyStrip
  rw [List.count_reverse, count_dropWhile_ws, List.count_reverse, count_dropWhile_ws]

theorem findGround_mem {db : List Ground} {gid : Nat} {g : Ground}
    (h : findGround db gid = some g) : g ∈ db :=
  List.mem_of_find?_eq_some h

theorem findGround_id {db : List Ground} {gid : Nat} {g : Ground}
    (h : findGround db gid = some g) : g.id = gid := by
  have := List.find?_some h
  simpa using this

theorem mem_updateFirst {f : Ground → Ground} :
    ∀ {db : List Ground} {gid : Nat} (x : Ground), x ∈ updateFirst db gid f →
      x ∈ db ∨ ∃ g, findGround db gid = some g ∧ x = f g := by
  intro db
  induction db with
  | nil => intro gid x hx; simp [updateFirst] at hx
  | cons a rest ih =>
    intro gid x hx
    by_cases ha : (a.id == gid) = true
    · simp only [updateFirst, if_pos ha, List.mem_cons] at hx
      rcases hx with hx | hx
      · refine Or.inr ⟨a, ?_, hx⟩
        unfold findGround
        exact List.find?_cons_of_pos (p := fun g : Ground => g.id == gid) rest ha
      · exact Or.inl (List.mem_cons_of_mem a hx)
    · simp only [updateFirst, if_neg ha, List.mem_cons] at hx
      rcases hx with hx | hx
      · exact Or.inl (hx ▸ List.mem_cons_self a rest)
      · rcases ih x hx with h | ⟨g, hg, hxg⟩
        · exact Or.inl (List.mem_cons_of_mem a h)
        · refine Or.inr ⟨g, ?_, hxg⟩
          unfold findGround at hg ⊢
          exact (List.find?_cons_of_neg (p := fun g : Ground => g.id == gid) rest ha).trans hg

theorem findGround_updateWhere {gid : Nat} {f : Ground → Ground}
    (hid : ∀ h, (f h).id = h.id) :
    ∀ {db : List Ground} {g : Ground}, findGround db gid = some g →
      findGround (updateWhere db (fun h => h.id == gid) f) gid = some (f g) := by
  intro db
  induction db with
  | nil => intro g hg; simp [findGround] at hg
  | cons a rest ih =>
    intro g hg
    have hcons : updateWhere (a :: rest) (fun h => h.id == gid) f
        = (if (a.id == gid) = true then f a else a)
          :: updateWhere rest (fun h => h.id == gid) f := rfl
    by_cases ha : (a.id == gid) = true
    · have hag : a = g := by
        unfold findGround at hg
        rw [List.find?_cons_of_pos (p := fun g : Ground => g.id == gid) rest ha] at hg
        exact Option.some.inj hg
      subst hag
      rw [hcons, if_pos ha]
      unfold findGround
      exact List.find?_cons_of_pos (p := fun g : Ground => g.id == gid) _ (by show ((f a).id == gid) = true; rw [hid]; exact ha)
    · have hg' : findGround rest gid = some g := by
        unfold findGround at hg ⊢
        exact (List.find?_cons_of_neg (p := fun g : Ground => g.id == gid) rest ha).symm.trans hg
      rw [hcons, if_neg ha]
      unfold findGround at ih ⊢
      exact (List.find?_cons_of_neg (p := fun g : Ground => g.id == gid) _ ha).trans (ih hg')

theorem map_id_updateWhere {db : List Ground} {p : Ground → Bool} {f : Ground → Ground}
    (hid : ∀ h, (f h).id = h.id) :
    (updateWhere db p f).map Ground.id = db.map Ground.id := by
  unfold updateWhere
  rw [List.map_map]
  refine List.map_congr_left ?_
  intro a _
  by_cases hp : p a <;> simp [hp, hid]

end MowBot

namespace MowBot

theorem assign_foldl (emp : Nat) :
    ∀ (sel : List Nat) (db : List Ground),
      sel.foldl (fun d jid => updateWhere d (fun g => g.id == jid)
        (fun g => { g with assigned_to := some emp })) db
      = db.map (fun g => if g.id ∈ sel then { g with assigned_to := some emp } else g) := by
  intro sel
  induction sel with
  | nil =>
    intro db
    simp
  | cons jid rest ih =>
    intro db
    rw [List.foldl_cons, ih]
    unfold updateWhere
    rw [List.map_map]
    refine List.map_congr_left ?_
    intro a _
    by_cases h1 : a.id = jid
    · by_cases h2 : a.id ∈ rest <;>
        simp [Function.comp, h1, h2, List.mem_cons]
    · by_cases h2 : a.id ∈ rest <;>
        simp [Function.comp, h1, h2, List.mem_cons]

theorem photo_count_current (g : Ground) :
    (if pyTruthy g.photos then pySplit (g.photos.getD []) else []).length = g.photo_count := by
  unfold Ground.photo_count
  by_cases h : pyTruthy g.photos <;> simp [h]

theorem pySplit_newPhotos_length (g : Ground) (path : List Char) :
    (pySplit (if pyTruthy g.photos then pyStrip (g.photos.getD []) ++ '|' :: path else path)).length
      = g.photo_count + path.count '|' + 1 := by
  by_cases h : pyTruthy g.photos
  · rw [if_pos h, pySplit_append_sep, List.length_append, length_pySplit, length_pySplit,
      count_pyStrip]
    unfold Ground.photo_count
    rw [if_pos h, length_pySplit]
    omega
  · rw [if_neg h]
    unfold Ground.photo_count
    rw [if_neg h, length_pySplit]
    omega

theorem add_photo_eq_capacity {db : List Ground} {gid : Nat} {g : Ground} (path : List Char)
    (hg : findGround db gid = some g) (hge : MAX_PHOTOS_PER_JOB ≤ g.photo_count) :
    GroundService.add_photo db gid path
      = ((false, "Maximum number of photos (25) reached", g.photo_count), db) := by
  unfold GroundService.add_photo
  rw [hg]
  dsimp only
  rw [photo_count_current, if_pos hge]

theorem add_photo_eq_success {db : List Ground} {gid : Nat} {g : Ground} (path : List Char)
    (hg : findGround db gid = some g) (hlt : g.photo_count < MAX_PHOTOS_PER_JOB) :
    GroundService.add_photo db gid path
      = ((true, "Photo added successfully", g.photo_count + path.count '|' + 1),
         updateFirst db gid (fun h =>
           { h with photos := some (if pyTruthy g.photos
               then pyStrip (g.photos.getD []) ++ '|' :: path else path) })) := by
  unfold GroundService.add_photo
  rw [hg]
  dsimp only
  rw [photo_count_current, if_neg (Nat.not_le.mpr hlt), pySplit_newPhotos_length]

end MowBot

namespace MowBot

theorem gs_start_completed {db : List Ground} {gid : Nat} {g : Ground} (now : Nat)
    (hg : findGround db gid = some g) (hc : g.status = "completed") :
    GroundService.start_job db gid now = ((false, "Job is already completed"), db) := by
  unfold GroundService.start_job
  rw [hg]
  dsimp only
  rw [if_pos hc]

theorem gs_start_go {db : List Ground} {gid : Nat} {g : Ground} (now : Nat)
    (hg : findGround db gid = some g) (hc : ¬g.status = "completed") :
    GroundService.start_job db gid now
      = ((true, "Job started successfully"),
         updateFirst db gid (fun h =>
           { h with status := "in_progress", start_time := some now })) := by
  unfold GroundService.start_job
  rw [hg]
  dsimp only
  rw [if_neg hc]

theorem gs_finish_completed {db : List Ground} {gid : Nat} {g : Ground} (now : Nat)
    (hg : findGround db gid = some g) (hc : g.status = "completed") :
    GroundService.finish_job db gid now = ((false, "Job is already completed"), db) := by
  unfold GroundService.finish_job
  rw [hg]
  dsimp only
  rw [if_pos hc]

theorem gs_finish_go {db : List Ground} {gid : Nat} {g : Ground} (now : Nat)
    (hg : findGround db gid = some g) (hc : ¬g.status = "completed") :
    GroundService.finish_job db gid now
      = ((true, "Job completed successfully"),
         updateFirst db gid (fun h =>
           { h with status := "completed", finish_time := some now })) := by
  unfold GroundService.finish_job
  rw [hg]
  dsimp only
  rw [if_neg hc]

theorem emp_start_notfound {db : List Ground} {gid : Nat} (now : Nat)
    (hg : findGround db gid = none) :
    TelegramBot.emp_start_job db gid now = ("JOB_404", db) := by
  unfold TelegramBot.emp_start_job
  rw [hg]

theorem emp_start_inprogress {db : List Ground} {gid : Nat} {g : Ground} (now : Nat)
    (hg : findGround db gid = some g) (h : g.status = "in_progress") :
    TelegramBot.emp_start_job db gid now = ("JOB_IN_PROGRESS", db) := by
  unfold TelegramBot.emp_start_job
  rw [hg]
  dsimp only
  rw [if_pos h]

theorem emp_start_go {db : List Ground} {gid : Nat} {g : Ground} (now : Nat)
    (hg : findGround db gid = some g) (h : ¬g.status = "in_progress") :
    TelegramBot.emp_start_job db gid now
      = ("Job Started",
         updateWhere db (fun h => h.id == gid)
           (fun h => { h with status := "in_progress", start_time := some now })) := by
  unfold TelegramBot.emp_start_job
  rw [hg]
  dsimp only
  rw [if_neg h]

theorem emp_finish_notfound {db : List Ground} {gid : Nat} (now : Nat)
    (hg : findGround db gid = none) :
    TelegramBot.emp_finish_job db gid now = ("JOB_404", db) := by
  unfold TelegramBot.emp_finish_job
  rw [hg]

theorem emp_finish_completed {db : List Ground} {gid : Nat} {g : Ground} (now : Nat)
    (hg : findGround db gid = some g) (h : g.status = "completed") :
    TelegramBot.emp_finish_job db gid now = ("JOB_COMPLETED", db) := by
  unfold TelegramBot.emp_finish_job
  rw [hg]
  dsimp only
  rw [if_pos h]

theorem emp_finish_notstarted {db : List Ground} {gid : Nat} {g : Ground} (now : Nat)
    (hg : findGround db gid = some g) (h1 : ¬g.status = "completed")
    (h2 : ¬g.status = "in_progress") :
    TelegramBot.emp_finish_job db gid now = ("JOB_NOT_STARTED", db) := by
  unfold TelegramBot.emp_finish_job
  rw [hg]
  dsimp only
  rw [if_neg h1, if_pos h2]

theorem emp_finish_go {db : List Ground} {gid : Nat} {g : Ground} (now : Nat)
    (hg : findGround db gid = some g) (h : g.status = "in_progress") :
    TelegramBot.emp_finish_job db gid now
      = ("Job Completed",
         updateWhere db (fun h => h.id == gid)
           (fun h => { h with status := "completed", finish_time := some now })) := by
  have h1 : ¬g.status = "completed" := by rw [h]; decide
  unfold TelegramBot.emp_finish_job
  rw [hg]
  dsimp only
  rw [if_neg h1, if_neg (by rw [h]; exact fun hh => hh rfl)]

end MowBot

namespace MowBot

/-- C1 (counterexample): the claim fails on `GroundService.start_job`
(`ground_service.py` lines 26–39), one of its cited realizations of
StartJob.  On a job already `in_progress` with `start_time = 5`, the
call at time 9 returns the plain success outcome — not an "already
started" outcome — and overwrites `start_time` with 9, so the job
record is not left unchanged. -/
theorem claim_C1_cex :
    GroundService.start_job [mkJob 1 "in_progress" none none (some 5) none none] 1 9
      = ((true, "Job started successfully"),
         [mkJob 1 "in_progress" none none (some 9) none none])
    ∧ mkJob 1 "in_progress" none none (some 9) none none
        ≠ mkJob 1 "in_progress" none none (some 5) none none := by
  exact ⟨rfl, by decide⟩

/-- C1 (amended): the idempotent no-op holds for the `emp_start_job`
handler (`telegram_bot.py` lines 459–477): on an existing job with
status `in_progress` it reports `JOB_IN_PROGRESS` and leaves the table
unchanged, and calling it twice on a pending job leaves the job
`in_progress` with the `start_time` written by the first call, the
second call reporting `JOB_IN_PROGRESS` without mutation.
`GroundService.start_job by contrast has no such guard (see the
counterexample). -/
theorem claim_C1 (db : List Ground) (gid : Nat) (g : Ground) (now1 now2 : Nat)
    (hg : findGround db gid = some g) :
    (g.status = "in_progress" →
      TelegramBot.emp_start_job db gid now1 = ("JOB_IN_PROGRESS", db))
    ∧ (g.status = "pending" →
        (TelegramBot.emp_start_job db gid now1).1 = "Job Started"
        ∧ findGround (TelegramBot.emp_start_job db gid now1).2 gid
            = some { g with status := "in_progress", start_time := some now1 }
        ∧ TelegramBot.emp_start_job (TelegramBot.emp_start_job db gid now1).2 gid now2
            = ("JOB_IN_PROGRESS", (TelegramBot.emp_start_job db gid now1).2)) := by
  constructor
  · intro h
    exact emp_start_inprogress now1 hg h
  · intro h
    have hne : ¬g.status = "in_progress" := by rw [h]; decide
    have h1 := emp_start_go now1 hg hne
    have h2 : findGround (TelegramBot.emp_start_job db gid now1).2 gid
        = some { g with status := "in_progress", start_time := some now1 } := by
      rw [h1]
      exact findGround_updateWhere
        (f := fun h => { h with status := "in_progress", start_time := some now1 })
        (fun h => rfl) hg
    exact ⟨by rw [h1], h2, emp_start_inprogress now2 h2 rfl⟩

/-- C1 (witness): the amended theorem applied to a concrete one-job
table with a pending job, started at time 4 and started again at
time 9. -/
theorem claim_C1_witness :
    (TelegramBot.emp_start_job [mkJob 1 "pending" none none none none none] 1 4).1
      = "Job Started"
    ∧ findGround (TelegramBot.emp_start_job
        [mkJob 1 "pending" none none none none none] 1 4).2 1
      = some { mkJob 1 "pending" none none none none none with
               status := "in_progress", start_time := some 4 }
    ∧ TelegramBot.emp_start_job (TelegramBot.emp_start_job
        [mkJob 1 "pending" none none none none none] 1 4).2 1 9
      = ("JOB_IN_PROGRESS", (TelegramBot.emp_start_job
          [mkJob 1 "pending" none none none none none] 1 4).2) :=
  (claim_C1 [mkJob 1 "pending" none none none none none] 1
    (mkJob 1 "pending" none none none none none) 4 9 rfl).2 rfl

/-- C2 (counterexample): the claim fails on `GroundService.finish_job`
(`ground_service.py` lines 41–54), one of its cited realizations of
FinishJob.  A pending job that was never started is completed outright:
the call returns success, sets `status = 'completed'` and writes
`finish_time`, instead of returning a "not started" failure without
mutation. -/
theorem claim_C2_cex :
    GroundService.finish_job [mkJob 1 "pending" none none none none none] 1 7
      = ((true, "Job completed successfully"),
         [mkJob 1 "completed" none none none (some 7) none])
    ∧ (mkJob 1 "completed" none none none (some 7) none).start_time = none := by
  exact ⟨rfl, rfl⟩

/-- C2 (amended): the rejection holds for the `emp_finish_job` handler
(`telegram_bot.py` lines 479–500): on an existing job whose status is
`pending`, it reports `JOB_NOT_STARTED` and the table is returned
unchanged — status stays `pending` and no timestamp is written.
`GroundService.finish_job` by contrast completes a never-started job
(see the counterexample). -/
theorem claim_C2 (db : List Ground) (gid : Nat) (g : Ground) (now : Nat)
    (hg : findGround db gid = some g) (hp : g.status = "pending") :
    TelegramBot.emp_finish_job db gid now = ("JOB_NOT_STARTED", db) := by
  refine emp_finish_notstarted now hg ?_ ?_
  · rw [hp]; decide
  · rw [hp]; decide

/-- C2 (witness): the amended theorem applied to a concrete one-job
table holding a pending job. -/
theorem claim_C2_witness :
    TelegramBot.emp_finish_job [mkJob 1 "pending" none none none none none] 1 7
      = ("JOB_NOT_STARTED", [mkJob 1 "pending" none none none none none]) :=
  claim_C2 [mkJob 1 "pending" none none none none none] 1
    (mkJob 1 "pending" none none none none none) 7 rfl rfl

/-- C8 (counterexample): the claim fails on the `emp_start_job` handler
(`telegram_bot.py` lines 459–477), one of its cited realizations of
StartJob.  A completed job (start 1, finish 2) is restarted at time 5:
the handler reports success, puts the job back `in_progress`, and
overwrites `start_time` with 5, instead of failing without mutation. -/
theorem claim_C8_cex :
    TelegramBot.emp_start_job [mkJob 1 "completed" none none (some 1) (some 2) none] 1 5
      = ("Job Started", [mkJob 1 "in_progress" none none (some 5) (some 2) none])
    ∧ mkJob 1 "in_progress" none none (some 5) (some 2) none
        ≠ mkJob 1 "completed" none none (some 1) (some 2) none := by
  exact ⟨rfl, by decide⟩

/-- C8 (amended): the completed-guard holds for
`GroundService.start_job` (`ground_service.py` lines 26–39): on an
existing job whose status is `completed` it returns the failure result
`(False, "Job is already completed")` and the table is unchanged, so the
job does not re-enter `in_progress` and `start_time` is not overwritten.
The `emp_start_job` handler by contrast restarts completed jobs (see the
counterexample). -/
theorem claim_C8 (db : List Ground) (gid : Nat) (g : Ground) (now : Nat)
    (hg : findGround db gid = some g) (hc : g.status = "completed") :
    GroundService.start_job db gid now = ((false, "Job is already completed"), db) :=
  gs_start_completed now hg hc

/-- C8 (witness): the amended theorem applied to a concrete one-job
table holding a completed job. -/
theorem claim_C8_witness :
    GroundService.start_job [mkJob 1 "completed" none none (some 1) (some 2) none] 1 5
      = ((false, "Job is already completed"),
         [mkJob 1 "completed" none none (some 1) (some 2) none]) :=
  claim_C8 [mkJob 1 "completed" none none (some 1) (some 2) none] 1
    (mkJob 1 "completed" none none (some 1) (some 2) none) 5 rfl rfl

end MowBot

namespace MowBot

/-- C3 (counterexample): the claim fails on
`GroundService.reset_completed_jobs` (`ground_service.py` lines
102–116), one of its cited realizations of ResetCompletedJobs.  First
conjunct: a completed job with NULL `scheduled_date` — which the claim
says must be reset and counted — is left completely unchanged and the
reported count is 0.  Second conjunct: even for a matching job
(`scheduled_date` = today) the service leaves `start_time` set instead
of nulling it. -/
theorem claim_C3_cex :
    GroundService.reset_completed_jobs
        [mkJob 1 "completed" (some 7) none (some 1) (some 2) none] "2025-06-01"
      = (0, [mkJob 1 "completed" (some 7) none (some 1) (some 2) none])
    ∧ GroundService.reset_completed_jobs
        [mkJob 1 "completed" (some 7) (some "2025-06-01") (some 1) (some 2) none] "2025-06-01"
      = (1, [mkJob 1 "pending" none (some "2025-06-01") (some 1) none none]) := by
  exact ⟨rfl, rfl⟩

/-- C3 (amended): the claim holds in full for the `reset_jobs_daily`
task (`telegram_bot.py` lines 341–361): the reported affected-row count
is the number of jobs with `status = 'completed'` and `scheduled_date`
NULL or equal to today, and row by row exactly those jobs are set to
`status='pending'`, `assigned_to=NULL`, `start_time=NULL`,
`finish_time=NULL` while every other job is unchanged.
`GroundService.reset_completed_jobs` deviates (see the
counterexample). -/
theorem claim_C3 (db : List Ground) (today : String) :
    (TelegramBot.reset_jobs_daily db today).2
      = db.countP (fun g =>
          g.status == "completed"
          && (g.scheduled_date == none || g.scheduled_date == some today))
    ∧ List.Forall₂ (fun g g' =>
        (g.status = "completed" ∧ (g.scheduled_date = none ∨ g.scheduled_date = some today) →
          g' = { g with status := "pending", assigned_to := none, start_time := none, finish_time := none })
        ∧ (¬(g.status = "completed" ∧ (g.scheduled_date = none ∨ g.scheduled_date = some today)) →
          g' = g))
      db (TelegramBot.reset_jobs_daily db today).1 := by
  refine ⟨rfl, ?_⟩
  unfold TelegramBot.reset_jobs_daily updateWhere
  dsimp only
  rw [List.forall₂_map_right_iff, List.forall₂_same]
  intro x _
  have hiff : (x.status == "completed"
        && (x.scheduled_date == none || x.scheduled_date == some today)) = true
      ↔ (x.status = "completed" ∧ (x.scheduled_date = none ∨ x.scheduled_date = some today)) := by
    simp [Bool.and_eq_true, Bool.or_eq_true]
  by_cases hb : (x.status == "completed"
      && (x.scheduled_date == none || x.scheduled_date == some today)) = true
  · rw [if_pos hb]
    exact ⟨fun _ => rfl, fun hc => absurd (hiff.mp hb) hc⟩
  · rw [if_neg hb]
    exact ⟨fun hc => absurd (hiff.mpr hc) hb, fun _ => rfl⟩

/-- C5 (counterexample): the claim fails on `assign_jobs_to_employee`
(`telegram_bot.py` lines 731–748), the operation that acts on the
selection set.  Assigning the selection containing the single completed
job 1 to worker 42 sets only `assigned_to`: the job's status remains
`completed` — not `pending` — and `scheduled_date` is not written. -/
theorem claim_C5_cex :
    TelegramBot.assign_jobs_to_employee
        [mkJob 1 "completed" none none (some 1) (some 2) none] [1] 42
      = (("Jobs Assigned", [mkJob 1 "completed" (some 42) none (some 1) (some 2) none]), [])
    ∧ (mkJob 1 "completed" (some 42) none (some 1) (some 2) none).status ≠ "pending" := by
  exact ⟨rfl, by decide⟩

/-- C5 (amended): with a non-empty selection, `assign_jobs_to_employee`
sets `assigned_to = worker_id` on every job in the selection, leaves
every other field of those jobs and every unselected job unchanged, and
clears the selection set; `status` and `scheduled_date` are only set by
the separate per-job `GroundService.assign_to_employee`
(`ground_service.py` lines 84–100), which writes all three fields. -/
theorem claim_C5 (db : List Ground) (sel : List Nat) (emp : Nat) (hne : sel ≠ []) :
    (TelegramBot.assign_jobs_to_employee db sel emp).2 = []
    ∧ (TelegramBot.assign_jobs_to_employee db sel emp).1.1 = "Jobs Assigned"
    ∧ List.Forall₂ (fun g g' =>
        (g.id ∈ sel → g' = { g with assigned_to := some emp })
        ∧ (g.id ∉ sel → g' = g))
      db (TelegramBot.assign_jobs_to_employee db sel emp).1.2
    ∧ (∀ gid date g, findGround db gid = some g →
        GroundService.assign_to_employee db gid emp date
          = ((true, "Ground assigned successfully"),
             updateFirst db gid (fun h =>
               { h with assigned_to := some emp, scheduled_date := some date, status := "pending" }))) := by
  have hie : sel.isEmpty = false := by
    cases sel with
    | nil => exact absurd rfl hne
    | cons a t => rfl
  have heq : TelegramBot.assign_jobs_to_employee db sel emp
      = (("Jobs Assigned",
          sel.foldl (fun d jid => updateWhere d (fun g => g.id == jid)
            (fun g => { g with assigned_to := some emp })) db), []) := by
    unfold TelegramBot.assign_jobs_to_employee
    rw [if_neg (by simp [hie])]
  refine ⟨by rw [heq], by rw [heq], ?_, ?_⟩
  · rw [heq]
    dsimp only
    rw [assign_foldl, List.forall₂_map_right_iff, List.forall₂_same]
    intro x _
    by_cases hmem : x.id ∈ sel
    · rw [if_pos hmem]
      exact ⟨fun _ => rfl, fun hn => absurd hmem hn⟩
    · rw [if_neg hmem]
      exact ⟨fun hm => absurd hm hmem, fun _ => rfl⟩
  · intro gid date g hgg
    unfold GroundService.assign_to_employee
    rw [hgg]

/-- C5 (witness): the amended theorem applied to a concrete one-job
table with selection `[1]` and worker 7. -/
theorem claim_C5_witness :
    (TelegramBot.assign_jobs_to_employee
        [mkJob 1 "pending" none none none none none] [1] 7).2 = []
    ∧ GroundService.assign_to_employee
        [mkJob 1 "pending" none none none none none] 1 7 "2025-06-01"
      = ((true, "Ground assigned successfully"),
         updateFirst [mkJob 1 "pending" none none none none none] 1 (fun h =>
           { h with assigned_to := some 7, scheduled_date := some "2025-06-01", status := "pending" })) :=
  ⟨(claim_C5 [mkJob 1 "pending" none none none none none] [1] 7 (by decide)).1,
   (claim_C5 [mkJob 1 "pending" none none none none none] [1] 7 (by decide)).2.2.2
     1 "2025-06-01" (mkJob 1 "pending" none none none none none) rfl⟩

/-- C7 (code bug): `NoteService.add_note` never succeeds.  The `JobNote`
model class declares no `author_name` and no `photo_path` attribute, yet
`add_note` passes both to the declarative constructor, which therefore
raises `TypeError` on every call; the generic `except` branch rolls back
and returns `False`.  So for every business input the call returns
`False` and appends nothing — the claim's success behaviour ("appends
exactly one Note row and returns True") is unreachable. -/
theorem claim_C7 (notes : List JobNote) (noteId job_id author_id : Nat)
    (author_name author_role text : String) (photo_path : Option String) (now : Nat) :
    NoteService.add_note notes noteId job_id author_id author_name author_role text
      photo_path now = (false, notes) := rfl

/-- C10: a successful `GroundService.add_photo` returns
`photo_count + (number of separators in the path) + 1`, so a path
containing `'|'` inflates the reported count by more than one: the
delimiter-joined storage counts segments, not AddPhoto calls. -/
theorem claim_C10 (db : List Ground) (gid : Nat) (path : List Char) (g : Ground)
    (hg : findGround db gid = some g) (hlt : g.photo_count < MAX_PHOTOS_PER_JOB) :
    (GroundService.add_photo db gid path).1
      = (true, "Photo added successfully", g.photo_count + path.count '|' + 1)
    ∧ ('|' ∈ path → g.photo_count + 1 < g.photo_count + path.count '|' + 1) := by
  constructor
  · rw [add_photo_eq_success path hg hlt]
  · intro hm
    have hpos := List.count_pos_iff.mpr hm
    omega

/-- C10 (witness): a job holding one photo (`"a"`) receives the path
`"b|c"`; the single successful call reports count 3, not 2. -/
theorem claim_C10_witness :
    (GroundService.add_photo
        [mkJob 1 "pending" none none none none (some "a".toList)] 1 "b|c".toList).1
      = (true, "Photo added successfully",
         (mkJob 1 "pending" none none none none (some "a".toList)).photo_count
           + "b|c".toList.count '|' + 1)
    ∧ ('|' ∈ "b|c".toList →
        (mkJob 1 "pending" none none none none (some "a".toList)).photo_count + 1
          < (mkJob 1 "pending" none none none none (some "a".toList)).photo_count
            + "b|c".toList.count '|' + 1) :=
  claim_C10 [mkJob 1 "pending" none none none none (some "a".toList)] 1 "b|c".toList
    (mkJob 1 "pending" none none none none (some "a".toList)) rfl (by decide)

end MowBot

namespace MowBot

theorem add_photo_eq_notfound {db : List Ground} {gid : Nat} (path : List Char)
    (hg : findGround db gid = none) :
    GroundService.add_photo db gid path = ((false, "Ground not found", 0), db) := by
  unfold GroundService.add_photo
  rw [hg]

/-- C4 (counterexample): the capacity invariant fails for paths
containing the delimiter.  Starting from a fresh job with no photos,
one `add_photo` call with a 24-segment path succeeds (count 24), and a
second call with the path `"a|b"` also succeeds — the capacity check
sees only 24 segments — after which the job's `photo_count` is 26,
exceeding `MAX_PHOTOS_PER_JOB = 25`. -/
theorem claim_C4_cex :
    ((GroundService.add_photo (GroundService.add_photo
        [mkJob 1 "pending" none none none none none] 1
        "p|p|p|p|p|p|p|p|p|p|p|p|p|p|p|p|p|p|p|p|p|p|p|p".toList).2 1 "a|b".toList).1).1
      = true
    ∧ (findGround ((GroundService.add_photo (GroundService.add_photo
        [mkJob 1 "pending" none none none none none] 1
        "p|p|p|p|p|p|p|p|p|p|p|p|p|p|p|p|p|p|p|p|p|p|p|p".toList).2 1 "a|b".toList).2) 1).map
        Ground.photo_count = some 26
    ∧ MAX_PHOTOS_PER_JOB < 26 := by
  exact ⟨rfl, rfl, by decide⟩

theorem findGround_updateFirst {gid : Nat} {f : Ground → Ground}
    (hid : ∀ h, (f h).id = h.id) :
    ∀ {db : List Ground} {g : Ground}, findGround db gid = some g →
      findGround (updateFirst db gid f) gid = some (f g) := by
  intro db
  induction db with
  | nil => intro g hg; simp [findGround] at hg
  | cons a rest ih =>
    intro g hg
    have hcons : updateFirst (a :: rest) gid f
        = if (a.id == gid) = true then f a :: rest else a :: updateFirst rest gid f := rfl
    by_cases ha : (a.id == gid) = true
    · have hag : a = g := by
        unfold findGround at hg
        rw [List.find?_cons_of_pos (p := fun g : Ground => g.id == gid) rest ha] at hg
        exact Option.some.inj hg
      subst hag
      rw [hcons, if_pos ha]
      unfold findGround
      exact List.find?_cons_of_pos (p := fun g : Ground => g.id == gid) _
        (by show ((f a).id == gid) = true; rw [hid]; exact ha)
    · have hg' : findGround rest gid = some g := by
        unfold findGround at hg ⊢
        exact (List.find?_cons_of_neg (p := fun g : Ground => g.id == gid) rest ha).symm.trans hg
      rw [hcons, if_neg ha]
      unfold findGround at ih ⊢
      exact (List.find?_cons_of_neg (p := fun g : Ground => g.id == gid) _ ha).trans (ih hg')

/-- C4 (amended): the capacity behaviour holds for delimiter-free photo
paths.  For any path not containing `'|'`: (i) `add_photo` preserves the
invariant that every job's `photo_count` is at most
`MAX_PHOTOS_PER_JOB`; (ii) on a job at or above capacity the call fails
with the capacity message and the table is unchanged; (iii) below
capacity the call succeeds, returns the old count plus one, and the
post-state stores the appended path: the table is the old table with
exactly the addressed row's `photos` column rewritten to the stripped
old string joined with the path, the updated row is what a fresh lookup
returns, and its stored segment list is the old segment list with the
path appended.  With paths containing `'|'` the invariant is violated
(see the counterexample): the check counts stored segments, not
calls. -/
theorem claim_C4 (db : List Ground) (gid : Nat) (path : List Char)
    (hpath : ('|' : Char) ∉ path) :
    ((∀ g ∈ db, g.photo_count ≤ MAX_PHOTOS_PER_JOB) →
      ∀ g' ∈ (GroundService.add_photo db gid path).2, g'.photo_count ≤ MAX_PHOTOS_PER_JOB)
    ∧ (∀ g, findGround db gid = some g →
        (MAX_PHOTOS_PER_JOB ≤ g.photo_count →
          GroundService.add_photo db gid path
            = ((false, "Maximum number of photos (25) reached", g.photo_count), db))
        ∧ (g.photo_count < MAX_PHOTOS_PER_JOB →
          GroundService.add_photo db gid path
            = ((true, "Photo added successfully", g.photo_count + 1),
               updateFirst db gid (fun h => { h with photos := some (if pyTruthy g.photos then pyStrip (g.photos.getD []) ++ '|' :: path else path) }))
          ∧ findGround (GroundService.add_photo db gid path).2 gid
              = some { g with photos := some (if pyTruthy g.photos then pyStrip (g.photos.getD []) ++ '|' :: path else path) }
          ∧ pySplit (if pyTruthy g.photos then pyStrip (g.photos.getD []) ++ '|' :: path else path)
              = (if pyTruthy g.photos then pySplit (pyStrip (g.photos.getD [])) else []) ++ [path])) := by
  have hcount0 : path.count '|' = 0 := List.count_eq_zero.mpr hpath
  constructor
  · intro hall g' hg'
    cases hf : findGround db gid with
    | none =>
      rw [add_photo_eq_notfound path hf] at hg'
      exact hall g' hg'
    | some g =>
      by_cases hge : MAX_PHOTOS_PER_JOB ≤ g.photo_count
      · rw [add_photo_eq_capacity path hf hge] at hg'
        exact hall g' hg'
      · have hlt : g.photo_count < MAX_PHOTOS_PER_JOB := Nat.not_le.mp hge
        rw [add_photo_eq_success path hf hlt] at hg'
        rcases mem_updateFirst g' hg' with hmem | ⟨g0, hg0, hval⟩
        · exact hall g' hmem
        · have hg0g : g0 = g := Option.some.inj ((hg0.symm.trans hf))
          subst hg0g
          subst hval
          have hlen := pySplit_newPhotos_length g0 path
          unfold Ground.photo_count
          dsimp only
          by_cases ht : pyTruthy (some (if pyTruthy g0.photos
              then pyStrip (g0.photos.getD []) ++ '|' :: path else path))
          · rw [if_pos ht]
            simp only [Option.getD_some]
            rw [hlen, hcount0]
            omega
          · rw [if_neg ht]
            exact Nat.zero_le _
  · intro g hg
    constructor
    · intro hge
      exact add_photo_eq_capacity path hg hge
    · intro hlt
      have he := add_photo_eq_success path hg hlt
      rw [hcount0, Nat.add_zero] at he
      refine ⟨he, ?_, ?_⟩
      · rw [he]
        exact findGround_updateFirst (f := fun h => { h with photos := some (if pyTruthy g.photos then pyStrip (g.photos.getD []) ++ '|' :: path else path) }) (fun h => rfl) hg
      · by_cases ht : pyTruthy g.photos
        · rw [if_pos ht, if_pos ht, pySplit_append_sep, pySplit_of_not_mem path hpath]
        · rw [if_neg ht, if_neg ht, pySplit_of_not_mem path hpath]
          rfl

/-- C4 (witness): the amended theorem applied to a one-job table with a
single stored photo `"a"` and the delimiter-free path `"x"`: the
invariant holds on the post-state, and the call returns count 2 with
the table rewritten to store the appended path. -/
theorem claim_C4_witness :
    (∀ g' ∈ (GroundService.add_photo
        [mkJob 1 "pending" none none none none (some "a".toList)] 1 "x".toList).2,
      g'.photo_count ≤ MAX_PHOTOS_PER_JOB)
    ∧ GroundService.add_photo
        [mkJob 1 "pending" none none none none (some "a".toList)] 1 "x".toList
      = ((true, "Photo added successfully",
          (mkJob 1 "pending" none none none none (some "a".toList)).photo_count + 1),
         updateFirst [mkJob 1 "pending" none none none none (some "a".toList)] 1
           (fun h => { h with photos := some (if pyTruthy (mkJob 1 "pending" none none none none (some "a".toList)).photos then pyStrip ((mkJob 1 "pending" none none none none (some "a".toList)).photos.getD []) ++ '|' :: "x".toList else "x".toList) })) :=
  ⟨(claim_C4 [mkJob 1 "pending" none none none none (some "a".toList)] 1 "x".toList
      (by decide)).1 (by decide),
   ((((claim_C4 [mkJob 1 "pending" none none none none (some "a".toList)] 1 "x".toList
      (by decide)).2 (mkJob 1 "pending" none none none none (some "a".toList)) rfl).2
      (by decide))).1⟩

end MowBot

namespace MowBot

/-- Concatenation of the director assignment pages 1 through `n`. -/
def joinPages (db : List Ground) : Nat → List Ground
  | 0 => []
  | n + 1 => joinPages db n ++ TelegramBot.build_director_assign_jobs_page db (n + 1)

theorem joinPages_eq (db : List Ground) :
    ∀ n, joinPages db n = (TelegramBot.unassignedSorted db).take (10 * n) := by
  intro n
  induction n with
  | zero => simp [joinPages]
  | succ n ih =>
    show joinPages db n ++ TelegramBot.build_director_assign_jobs_page db (n + 1) = _
    rw [ih]
    have h10 : 10 * (n + 1) = 10 * n + 10 := by ring
    rw [h10, List.take_add]
    congr 1
    unfold TelegramBot.build_director_assign_jobs_page
    simp [Nat.add_sub_cancel, Nat.mul_comm]

/-- C9: `build_director_assign_jobs_page` is deterministic and
partition-correct.  (i) Page `p ≥ 1` is exactly the slice at positions
`(p-1)*10 … p*10 - 1` of the unassigned jobs ordered by id;
(ii) that order is sorted by id; (iii) it is a permutation of the rows
with `assigned_to IS NULL` — each appears exactly once; (iv) the
concatenation of consecutive pages `1..n` recovers the whole ordered
unassigned list once `10*n` covers its length, so paging neither skips
nor duplicates a row. -/
theorem claim_C9 (db : List Ground) :
    (∀ p, 1 ≤ p → TelegramBot.build_director_assign_jobs_page db p
        = ((TelegramBot.unassignedSorted db).drop ((p - 1) * 10)).take 10)
    ∧ (TelegramBot.unassignedSorted db).Pairwise (fun a b => a.id ≤ b.id)
    ∧ (TelegramBot.unassignedSorted db).Perm
        (db.filter (fun g => g.assigned_to == none))
    ∧ (∀ n, (TelegramBot.unassignedSorted db).length ≤ 10 * n →
        joinPages db n = TelegramBot.unassignedSorted db) := by
  refine ⟨fun p hp => rfl, ?_, ?_, ?_⟩
  · have hs : List.Pairwise (fun a b : Ground => (decide (a.id ≤ b.id)) = true)
        ((db.filter (fun g => g.assigned_to == none)).mergeSort
          (fun a b => decide (a.id ≤ b.id))) :=
      List.sorted_mergeSort
        (fun a b c hab hbc => by
          simp only [decide_eq_true_eq] at hab hbc ⊢
          omega)
        (fun a b => by
          simp only [Bool.or_eq_true, decide_eq_true_eq]
          exact Nat.le_total a.id b.id)
        (db.filter (fun g => g.assigned_to == none))
    exact hs.imp (fun h => by simpa using h)
  · exact List.mergeSort_perm _ _
  · intro n hlen
    rw [joinPages_eq db n]
    exact List.take_of_length_le hlen

/-- C9 (witness): the theorem applied to a concrete two-job table (one
job assigned, one unassigned) at page 1 and page count 1. -/
theorem claim_C9_witness :
    TelegramBot.build_director_assign_jobs_page
        [mkJob 2 "pending" none none none none none,
         mkJob 1 "pending" (some 3) none none none none] 1
      = ((TelegramBot.unassignedSorted
          [mkJob 2 "pending" none none none none none,
           mkJob 1 "pending" (some 3) none none none none]).drop ((1 - 1) * 10)).take 10
    ∧ joinPages
        [mkJob 2 "pending" none none none none none,
         mkJob 1 "pending" (some 3) none none none none] 1
      = TelegramBot.unassignedSorted
          [mkJob 2 "pending" none none none none none,
           mkJob 1 "pending" (some 3) none none none none] :=
  ⟨(claim_C9 [mkJob 2 "pending" none none none none none,
      mkJob 1 "pending" (some 3) none none none none]).1 1 (by decide),
   (claim_C9 [mkJob 2 "pending" none none none none none,
      mkJob 1 "pending" (some 3) none none none none]).2.2.2 1
     (by
       rw [List.Perm.length_eq ((claim_C9 [mkJob 2 "pending" none none none none none,
         mkJob 1 "pending" (some 3) none none none none]).2.2.1)]
       decide)⟩

end MowBot

namespace MowBot

/-- Per-job invariant at clock `c`: an `in_progress` job has a start
time; a `completed` job has both timestamps with `start ≤ finish`; all
timestamps are at most the clock. -/
def JobInv (c : Nat) (g : Ground) : Prop :=
  (g.status = "in_progress" → g.start_time ≠ none)
  ∧ (g.status = "completed" →
      ∃ s f, g.start_time = some s ∧ g.finish_time = some f ∧ s ≤ f)
  ∧ (∀ t, g.start_time = some t → t ≤ c)
  ∧ (∀ t, g.finish_time = some t → t ≤ c)

/-- Table invariant: primary-key ids are distinct (the `grounds_data`
schema has `id` as primary key) and every row satisfies `JobInv` at the
current clock. -/
def DbInv (s : List Ground × Nat) : Prop :=
  (s.1.map Ground.id).Nodup ∧ ∀ g ∈ s.1, JobInv s.2 g

/-- One lifecycle operation of the claim, realized by the
`telegram_bot.py` handlers, performed at a time `now` not earlier than
the current clock (`datetime.now()` is monotone). -/
inductive StepE : List Ground × Nat → List Ground × Nat → Prop
  | start (db : List Ground) (c gid now : Nat) (hc : c ≤ now) :
      StepE (db, c) ((TelegramBot.emp_start_job db gid now).2, now)
  | finish (db : List Ground) (c gid now : Nat) (hc : c ≤ now) :
      StepE (db, c) ((TelegramBot.emp_finish_job db gid now).2, now)
  | assign (db : List Ground) (c : Nat) (sel : List Nat) (emp now : Nat) (hc : c ≤ now) :
      StepE (db, c) ((TelegramBot.assign_jobs_to_employee db sel emp).1.2, now)
  | reset (db : List Ground) (c : Nat) (today : String) (now : Nat) (hc : c ≤ now) :
      StepE (db, c) ((TelegramBot.reset_jobs_daily db today).1, now)

/-- Reflexive-transitive closure of `StepE`: any sequence of StartJob,
FinishJob, AssignSelected and ResetCompletedJobs operations. -/
inductive ReachableE : List Ground × Nat → List Ground × Nat → Prop
  | refl (s : List Ground × Nat) : ReachableE s s
  | tail {s t u : List Ground × Nat} : ReachableE s t → StepE t u → ReachableE s u

theorem jobInv_mono {c c' : Nat} (hc : c ≤ c') {g : Ground} (h : JobInv c g) :
    JobInv c' g :=
  ⟨h.1, h.2.1, fun t ht => le_trans (h.2.2.1 t ht) hc,
    fun t ht => le_trans (h.2.2.2 t ht) hc⟩

theorem findGround_unique {db : List Ground} {gid : Nat} {g x : Ground}
    (hnd : (db.map Ground.id).Nodup) (hf : findGround db gid = some g)
    (hmem : x ∈ db) (hid : x.id = gid) : x = g :=
  List.inj_on_of_nodup_map hnd hmem (findGround_mem hf)
    (by rw [hid, findGround_id hf])

theorem dbInv_step {s t : List Ground × Nat} (hinv : DbInv s) (hstep : StepE s t) :
    DbInv t := by
  obtain ⟨hnd, hjob⟩ := hinv
  cases hstep with
  | start db c gid now hc =>
    cases hf : findGround db gid with
    | none =>
      rw [emp_start_notfound now hf]
      exact ⟨hnd, fun x hx => jobInv_mono hc (hjob x hx)⟩
    | some g =>
      by_cases hs : g.status = "in_progress"
      · rw [emp_start_inprogress now hf hs]
        exact ⟨hnd, fun x hx => jobInv_mono hc (hjob x hx)⟩
      · rw [emp_start_go now hf hs]
        refine ⟨?_, ?_⟩
        · show ((updateWhere db _ _).map Ground.id).Nodup
          rw [map_id_updateWhere (f := fun h => { h with status := "in_progress", start_time := some now }) (fun h => rfl)]
          exact hnd
        · intro x hx
          unfold updateWhere at hx
          rcases List.mem_map.mp hx with ⟨a, ha, rfl⟩
          by_cases hpa : (a.id == gid) = true
          · rw [if_pos hpa]
            refine ⟨fun _ => Option.some_ne_none now, fun hcompl => by simp at hcompl,
              fun t ht => Nat.le_of_eq (Option.some.inj ht).symm,
              fun t ht => le_trans ((hjob a ha).2.2.2 t ht) hc⟩
          · rw [if_neg hpa]
            exact jobInv_mono hc (hjob a ha)
  | finish db c gid now hc =>
    cases hf : findGround db gid with
    | none =>
      rw [emp_finish_notfound now hf]
      exact ⟨hnd, fun x hx => jobInv_mono hc (hjob x hx)⟩
    | some g =>
      by_cases hcompl : g.status = "completed"
      · rw [emp_finish_completed now hf hcompl]
        exact ⟨hnd, fun x hx => jobInv_mono hc (hjob x hx)⟩
      · by_cases hs : g.status = "in_progress"
        · rw [emp_finish_go now hf hs]
          refine ⟨?_, ?_⟩
          · show ((updateWhere db _ _).map Ground.id).Nodup
            rw [map_id_updateWhere (f := fun h => { h with status := "completed", finish_time := some now }) (fun h => rfl)]
            exact hnd
          · intro x hx
            unfold updateWhere at hx
            rcases List.mem_map.mp hx with ⟨a, ha, rfl⟩
            by_cases hpa : (a.id == gid) = true
            · have hag : a = g := findGround_unique hnd hf ha (beq_iff_eq.mp hpa)
              subst hag
              rw [if_pos hpa]
              have hgmem := findGround_mem hf
              have hstartne := (hjob a ha).1 hs
              obtain ⟨u, hu⟩ := Option.ne_none_iff_exists'.mp hstartne
              refine ⟨fun hip => by simp at hip,
                fun _ => ⟨u, now, hu, rfl, le_trans ((hjob a ha).2.2.1 u hu) hc⟩,
                fun t ht => le_trans ((hjob a ha).2.2.1 t ht) hc,
                fun t ht => Nat.le_of_eq (Option.some.inj ht).symm⟩
            · rw [if_neg hpa]
              exact jobInv_mono hc (hjob a ha)
        · rw [emp_finish_notstarted now hf hcompl hs]
          exact ⟨hnd, fun x hx => jobInv_mono hc (hjob x hx)⟩
  | assign db c sel emp now hc =>
    by_cases hie : sel.isEmpty = true
    · have hdb : (TelegramBot.assign_jobs_to_employee db sel emp).1.2 = db := by
        unfold TelegramBot.assign_jobs_to_employee
        rw [if_pos hie]
      rw [hdb]
      exact ⟨hnd, fun x hx => jobInv_mono hc (hjob x hx)⟩
    · have hdb : (TelegramBot.assign_jobs_to_employee db sel emp).1.2
          = db.map (fun g => if g.id ∈ sel then { g with assigned_to := some emp } else g) := by
        unfold TelegramBot.assign_jobs_to_employee
        rw [if_neg hie]
        exact assign_foldl emp sel db
      rw [hdb]
      refine ⟨?_, ?_⟩
      · rw [List.map_map]
        have heq : db.map (Ground.id ∘ fun g =>
              if g.id ∈ sel then { g with assigned_to := some emp } else g)
            = db.map Ground.id :=
          List.map_congr_left (fun a _ => by
            by_cases hm : a.id ∈ sel <;> simp [Function.comp, hm])
        rw [heq]
        exact hnd
      · intro x hx
        rcases List.mem_map.mp hx with ⟨a, ha, rfl⟩
        by_cases hm : a.id ∈ sel
        · rw [if_pos hm]
          exact jobInv_mono hc (hjob a ha)
        · rw [if_neg hm]
          exact jobInv_mono hc (hjob a ha)
  | reset db c today now hc =>
    show DbInv (updateWhere db
      (fun g => g.status == "completed"
        && (g.scheduled_date == none || g.scheduled_date == some today))
      (fun h => { h with status := "pending", assigned_to := none, start_time := none, finish_time := none }), now)
    refine ⟨?_, ?_⟩
    · rw [map_id_updateWhere (f := fun h => { h with status := "pending", assigned_to := none, start_time := none, finish_time := none }) (fun h => rfl)]
      exact hnd
    · intro x hx
      unfold updateWhere at hx
      rcases List.mem_map.mp hx with ⟨a, ha, rfl⟩
      by_cases hpa : (a.status == "completed"
          && (a.scheduled_date == none || a.scheduled_date == some today)) = true
      · rw [if_pos hpa]
        exact ⟨fun hip => by simp at hip,
          fun hco => by simp at hco,
          fun t ht => Option.noConfusion ht,
          fun t ht => Option.noConfusion ht⟩
      · rw [if_neg hpa]
        exact jobInv_mono hc (hjob a ha)

theorem dbInv_reachable {s t : List Ground × Nat} (hinv : DbInv s)
    (hr : ReachableE s t) : DbInv t := by
  induction hr with
  | refl => exact hinv
  | tail hr hstep ih => exact dbInv_step ih hstep

end MowBot

namespace MowBot

theorem stepPendingStart :
    StepE ([mkJob 1 "pending" none none none none none], 0)
      ([mkJob 1 "in_progress" none none (some 1) none none], 1) := by
  have h := StepE.start [mkJob 1 "pending" none none none none none] 0 1 1 (by decide)
  have e : (TelegramBot.emp_start_job [mkJob 1 "pending" none none none none none] 1 1).2
      = [mkJob 1 "in_progress" none none (some 1) none none] := by decide
  rw [e] at h
  exact h

theorem stepStartFinish :
    StepE ([mkJob 1 "in_progress" none none (some 1) none none], 1)
      ([mkJob 1 "completed" none none (some 1) (some 2) none], 2) := by
  have h := StepE.finish [mkJob 1 "in_progress" none none (some 1) none none] 1 1 2 (by decide)
  have e : (TelegramBot.emp_finish_job
        [mkJob 1 "in_progress" none none (some 1) none none] 1 2).2
      = [mkJob 1 "completed" none none (some 1) (some 2) none] := by decide
  rw [e] at h
  exact h

theorem stepFinishRestart :
    StepE ([mkJob 1 "completed" none none (some 1) (some 2) none], 2)
      ([mkJob 1 "in_progress" none none (some 3) (some 2) none], 3) := by
  have h := StepE.start [mkJob 1 "completed" none none (some 1) (some 2) none] 2 1 3 (by decide)
  have e : (TelegramBot.emp_start_job
        [mkJob 1 "completed" none none (some 1) (some 2) none] 1 3).2
      = [mkJob 1 "in_progress" none none (some 3) (some 2) none] := by decide
  rw [e] at h
  exact h

/-- C6 (counterexample): the ordering invariant fails as claimed.  From
the initial one-job table (job 1 pending, both timestamps null), the
operation sequence StartJob at time 1, FinishJob at time 2, StartJob at
time 3 is a legal sequence of the claim's operations — `emp_start_job`
has no completed-guard, so the third call restarts the completed job —
and it reaches a state whose job has both timestamps set with
`finish_time = 2 < 3 = start_time`. -/
theorem claim_C6_cex :
    ReachableE ([mkJob 1 "pending" none none none none none], 0)
      ([mkJob 1 "in_progress" none none (some 3) (some 2) none], 3)
    ∧ (mkJob 1 "in_progress" none none (some 3) (some 2) none).start_time = some 3
    ∧ (mkJob 1 "in_progress" none none (some 3) (some 2) none).finish_time = some 2
    ∧ 2 < 3 :=
  ⟨ReachableE.tail (ReachableE.tail (ReachableE.tail
      (ReachableE.refl _) stepPendingStart) stepStartFinish) stepFinishRestart,
    rfl, rfl, by decide⟩

/-- C6 (amended): in every state reachable from an initial table of
pending jobs with null timestamps and distinct ids, by any sequence of
the StartJob, FinishJob, AssignSelected and ResetCompletedJobs
operations (as realized by the `telegram_bot.py` handlers) under a
monotone clock, every job with status `completed` has both timestamps
set with `start_time ≤ finish_time`.  The claim's stronger clause — any
job with both timestamps set has `finish_time ≥ start_time` — is false
(see the counterexample: restarting a completed job leaves a stale
`finish_time` behind a newer `start_time`), and under
`GroundService.finish_job` even the completed clause fails, since a
never-started job can complete with `start_time` null (see the C2
counterexample). -/
theorem claim_C6 (db0 : List Ground) (c0 : Nat) (db : List Ground) (c : Nat)
    (hnodup : (db0.map Ground.id).Nodup)
    (hinit : ∀ g ∈ db0, g.status = "pending" ∧ g.start_time = none ∧ g.finish_time = none)
    (hreach : ReachableE (db0, c0) (db, c)) :
    ∀ g ∈ db, g.status = "completed" →
      ∃ s f, g.start_time = some s ∧ g.finish_time = some f ∧ s ≤ f := by
  have hinv0 : DbInv (db0, c0) := by
    refine ⟨hnodup, fun g hg => ?_⟩
    obtain ⟨h1, h2, h3⟩ := hinit g hg
    refine ⟨fun hip => ?_, fun hco => ?_, fun t ht => ?_, fun t ht => ?_⟩
    · exact absurd (h1.symm.trans hip) (by decide)
    · exact absurd (h1.symm.trans hco) (by decide)
    · rw [h2] at ht
      exact Option.noConfusion ht
    · rw [h3] at ht
      exact Option.noConfusion ht
  have hinv := dbInv_reachable hinv0 hreach
  exact fun g hg hco => (hinv.2 g hg).2.1 hco

/-- C6 (witness): the amended theorem applied to the concrete run
start-at-1 then finish-at-2 of a single pending job, whose completed
state indeed carries `start_time = 1 ≤ 2 = finish_time`. -/
theorem claim_C6_witness :
    ∃ s f, (mkJob 1 "completed" none none (some 1) (some 2) none).start_time = some s
      ∧ (mkJob 1 "completed" none none (some 1) (some 2) none).finish_time = some f
      ∧ s ≤ f :=
  claim_C6 [mkJob 1 "pending" none none none none none] 0
    [mkJob 1 "completed" none none (some 1) (some 2) none] 2
    (by decide) (by decide)
    (ReachableE.tail (ReachableE.tail (ReachableE.refl _) stepPendingStart) stepStartFinish)
    (mkJob 1 "completed" none none (some 1) (some 2) none)
    (List.mem_singleton.mpr rfl) rfl

end MowBot

namespace MowBot

/-- C3 (witness): the amended theorem's count conjunct applied to a
concrete one-job table holding a completed job with NULL scheduled
date. -/
theorem claim_C3_witness :
    (TelegramBot.reset_jobs_daily
        [mkJob 1 "completed" (some 7) none (some 1) (some 2) none] "2025-06-01").2
      = [mkJob 1 "completed" (some 7) none (some 1) (some 2) none].countP (fun g =>
          g.status == "completed"
          && (g.scheduled_date == none || g.scheduled_date == some "2025-06-01")) :=
  (claim_C3 [mkJob 1 "completed" (some 7) none (some 1) (some 2) none] "2025-06-01").1

/-- C7 (witness): the theorem applied to a concrete call: an empty notes
table, author Alice adding the text note "hi" with no photo; the call
reports failure and the table stays empty. -/
theorem claim_C7_witness :
    NoteService.add_note [] 5 1 2 "Alice" "employee" "hi" none 3 = (false, []) :=
  claim_C7 [] 5 1 2 "Alice" "employee" "hi" none 3

end MowBot
